import Mathlib

/-
Verification of the property/event synchronization core of flexx
(src/flexx/app/model.py: ModelMeta, Model, Model.JS).

The embedding models one side of a Model pair as a `ModelState`:
the Python side and the JS side are structurally identical (same
descriptor fields), so both sides reuse the structure.  Wire commands
(`SETPROP`, `EVENT`, `REG_EVENTS`, the instantiate command) are
modelled by the inductive `Cmd`; the textual serialization layer
(serializer.saves/loads) round-trips values, so commands carry the
values directly.  Property values are modelled as `Int`.

Base-class behavior (flexx.event.HasEvents, which is part of the
repository but not under src/) is modelled from the spec where needed;
those definitions carry a note in their doc comment.
-/

/-- Wire commands exchanged between the Python and JS halves of a Model:
SETPROP, EVENT, REG_EVENTS and the instantiate command. -/
inductive Cmd where
  | setprop (id name : String) (value : Int)
  | instantiate (id : String) (eventTypes : List String)
  | regEvents (id : String) (types : List String)
  | event (id ty : String) (payload : Int)
  deriving DecidableEq, Repr

/-- State of one side (Py or JS) of a Model instance.  `proxyProps` is this
side's `__proxy_properties__`; `norm` gives the declared validator of each
property on this side; `eventTypesOther` is `_event_types_js` on the Py side
(resp. `_event_types_py` on the JS side); `pendingFromJs` and `scheduled`
model the inbound-event queue and the number of `call_later` drains
scheduled for it. -/
structure ModelState where
  id : String
  props : List String
  proxyProps : List String
  defaults : String → Int
  norm : String → Int → Int
  values : String → Int
  eventTypesOther : List String
  localHandlers : String → List String
  pendingFromJs : List (String × Int)
  scheduled : Nat

/-- Validator installed on proxy properties (src line 37): returns the
value unchanged. -/
def stub_prop_func (v : Int) : Int := v

/-- Stub emitter installed on the Py side for JS-only emitters (src line 40):
raises when called from Python. -/
def stub_emitter_func_py (_args : List Int) : Except String Int :=
  Except.error "This emitter can only be called from JavaScript"

/-- Stub emitter intended for the JS side for Py-only emitters (src line 43):
raises when called from JavaScript. -/
def stub_emitter_func_js (_args : List Int) : Except String Int :=
  Except.error "This emitter can only be called from Python"

/-- Update the stored value of one property. -/
def setValue (m : ModelState) (name : String) (v : Int) : ModelState :=
  { m with values := fun k => if k = name then v else m.values k }

/-- Effective normalization applied by the base-class setter on this side:
proxy properties were created with `stub_prop_func` as their validator
(src lines 89 and 105), so they pass the value through unchanged; a
property authoritative on this side uses its declared validator. -/
def effNorm (m : ModelState) (name : String) (v : Int) : Int :=
  if name ∈ m.proxyProps then stub_prop_func v else m.norm name v

/-- Modelled from the spec: `HasEvents._set_prop` (flexx.event base class,
not under src/) validates/normalizes the value through the property's own
validator function and stores the result (spec 4.3: "validate/normalize,
store"; the src comment "if not a proxy, use normalized value" at line 289
reads the stored value back as the normalized one). -/
def baseSetProp (m : ModelState) (name : String) (v : Int) : ModelState :=
  setValue m name (effNorm m name v)

/-- Modelled from the spec: `HasEvents._init_prop` (base class, not under
src/) establishes the property's default value through the normal
validation path (spec 4.2 step 7: defaults established during base
construction go through the property-set path). -/
def baseInitProp (m : ModelState) (name : String) : ModelState :=
  baseSetProp m name (m.defaults name)

/-- Model._set_prop (src lines 282-294).  Stores iff `fromjs or not isproxy`;
sends iff `not (fromjs and isproxy)`; a non-proxy send carries the stored
(normalized) value, a proxy send carries the raw value. -/
def Model.set_prop (m : ModelState) (name : String) (value : Int)
    (fromjs : Bool) : ModelState × List Cmd :=
  let m1 := if fromjs = true ∨ name ∉ m.proxyProps then baseSetProp m name value else m
  if fromjs = true ∧ name ∈ m.proxyProps then
    (m1, [])
  else
    let sendVal := if name ∈ m.proxyProps then value else m1.values name
    (m1, [Cmd.setprop m1.id name sendVal])

/-- Model._set_prop_from_js (src lines 272-280): decode and apply with the
remote-origin flag set. -/
def Model.set_prop_from_js (m : ModelState) (name : String) (value : Int) :
    ModelState × List Cmd :=
  Model.set_prop m name value true

/-- Model._init_prop (src lines 296-305): run the base initialization; for a
non-proxy property run it again, then send one SETPROP with the stored
value. -/
def Model.init_prop (m : ModelState) (name : String) : ModelState × List Cmd :=
  let m1 := baseInitProp m name
  if name ∈ m.proxyProps then
    (m1, [])
  else
    let m2 := baseInitProp m1 name
    (m2, [Cmd.setprop m2.id name (m2.values name)])

/-- Model.JS._set_prop (src lines 374-389).  With no websocket
(window.flexx.ws is None, i.e. exported or nbviewer mode) it returns the
base-class setter's result immediately for every property; otherwise it
mirrors the Python side. -/
def ModelJS.set_prop (m : ModelState) (ws : Bool) (name : String)
    (value : Int) (frompy : Bool) : ModelState × List Cmd :=
  if ws = false then
    (baseSetProp m name value, [])
  else
    let m1 := if frompy = true ∨ name ∉ m.proxyProps then baseSetProp m name value else m
    if frompy = true ∧ name ∈ m.proxyProps then
      (m1, [])
    else
      let sendVal := if name ∈ m.proxyProps then value else m1.values name
      (m1, [Cmd.setprop m1.id name sendVal])

/-- Model.JS._set_prop_from_py (src lines 370-372). -/
def ModelJS.set_prop_from_py (m : ModelState) (ws : Bool) (name : String)
    (value : Int) : ModelState × List Cmd :=
  ModelJS.set_prop m ws name value true

/-- Model._set_event_types_js (src lines 312-313): replace the locally held
interest set of the other side. -/
def Model.set_event_types_js (m : ModelState) (ts : List String) : ModelState :=
  { m with eventTypesOther := ts }

/-- A local emission: the event type and payload handed to the base-class
publish/subscribe machinery, the origin flag, and the local handlers that
run for it (modelled from the spec: `super().emit` runs all locally
registered handlers; the base class is not under src/). -/
structure Emission where
  type : String
  ev : Int
  fromjs : Bool
  handlersRun : List String
  deriving DecidableEq, Repr

/-- Model.emit (src lines 330-335): run the base-class emission, then send
an EVENT command iff the emission is not remote-origin and the type is in
the other side's interest set. -/
def Model.emit (m : ModelState) (type : String) (ev : Int) (fromjs : Bool) :
    Emission × List Cmd :=
  let em : Emission :=
    { type := type, ev := ev, fromjs := fromjs, handlersRun := m.localHandlers type }
  if fromjs = false ∧ type ∈ m.eventTypesOther then
    (em, [Cmd.event m.id type ev])
  else
    (em, [])

/-- Model._emit_from_js (src lines 315-319): if the pending queue is empty,
schedule one deferred drain (call_later is modelled by counting how many
drains have been scheduled), then append the event to the queue. -/
def Model.emit_from_js (m : ModelState) (type : String) (ev : Int) : ModelState :=
  let m1 := if m.pendingFromJs = [] then { m with scheduled := m.scheduled + 1 } else m
  { m1 with pendingFromJs := m1.pendingFromJs ++ [(type, ev)] }

/-- Model.__emit_pending_from_js (src lines 321-328): swap out the queue,
then emit every buffered event in arrival order with the remote-origin
flag set. -/
def Model.emit_pending_from_js (m : ModelState) :
    ModelState × List Emission × List Cmd :=
  let pending := m.pendingFromJs
  let m1 := { m with pendingFromJs := [] }
  let r := pending.foldl
    (fun (acc : List Emission × List Cmd) te =>
      let ec := Model.emit m1 te.1 te.2 true
      (acc.1 ++ [ec.1], acc.2 ++ ec.2))
    (([] : List Emission), ([] : List Cmd))
  (m1, r.1, r.2)

/-- A sequence of remote-originated arrivals before the drain fires. -/
def arriveAll (m : ModelState) (events : List (String × Int)) : ModelState :=
  events.foldl (fun acc te => Model.emit_from_js acc te.1 te.2) m

/-- Class-level data of a Model subclass as seen by one side after the
metaclass has run: the merged property list, this side's proxy list,
defaults and validators, handler connection strings of both sides. -/
structure ModelClass where
  name : String
  props : List String
  proxyProps : List String
  defaults : String → Int
  norm : String → Int → Int
  eventTypesPy : List String
  eventTypesJs : List String
  localHandlers : String → List String

/-- Id assignment of Model.__init__ (src line 214): class name concatenated
with the decimal rendering of the process-wide counter. -/
def makeId (clsName : String) (counter : Nat) : String :=
  clsName ++ toString counter

/-- One step of base-class property initialization during construction
(modelled from the spec, 4.2 step 7: each property receives its initial
value once — a supplied value through the normal set path, otherwise the
default through the init path). -/
def constructStep (kwargs : List (String × Int)) (acc : ModelState × List Cmd)
    (p : String) : ModelState × List Cmd :=
  match kwargs.lookup p with
  | some v =>
      let r := Model.set_prop acc.1 p v false
      (r.1, acc.2 ++ r.2)
  | none =>
      let r := Model.init_prop acc.1 p
      (r.1, acc.2 ++ r.2)

/-- Model.__init__ (src lines 207-245): bump the process-wide counter,
assign the id, send the instantiate command carrying the Python-side
interest strings, then initialize the properties.  Returns the new counter
value, the constructed state and the emitted commands in order. -/
def Model.construct (cls : ModelClass) (counter : Nat)
    (kwargs : List (String × Int)) : Nat × ModelState × List Cmd :=
  let c := counter + 1
  let id := makeId cls.name c
  let m0 : ModelState :=
    { id := id, props := cls.props, proxyProps := cls.proxyProps,
      defaults := cls.defaults, norm := cls.norm, values := fun _ => 0,
      eventTypesOther := cls.eventTypesJs, localHandlers := cls.localHandlers,
      pendingFromJs := [], scheduled := 0 }
  let r := cls.props.foldl (constructStep kwargs)
    (m0, [Cmd.instantiate id cls.eventTypesPy])
  (c, r.1, r.2)

/-- Constructing a sequence of instances of the given classes, in order,
against the single process-wide counter (src lines 213-215).  Each entry
pairs the counter value the instance received with its assigned id. -/
def constructIds (names : List String) : List (Nat × String) :=
  (names.foldl
    (fun (acc : Nat × List (Nat × String)) nm =>
      (acc.1 + 1, acc.2 ++ [(acc.1 + 1, makeId nm (acc.1 + 1))]))
    (0, [])).2

/-- Encoded form of a Model reference (src lines 200-201): the type tag and
the id, never the full state. -/
structure JsonModelRef where
  type_tag : String
  id : String
  deriving DecidableEq, Repr

/-- get_instance_by_id (src lines 30-34): look the id up in the process-wide
registry, None if absent. -/
def get_instance_by_id (instances : List (String × ModelState)) (id : String) :
    Option ModelState :=
  instances.lookup id

/-- Model.__json__ (src lines 200-201). -/
def Model.json (m : ModelState) : JsonModelRef :=
  { type_tag := "Flexx-Model", id := m.id }

/-- Model.__from_json__ (src lines 203-205). -/
def Model.from_json (instances : List (String × ModelState))
    (dct : JsonModelRef) : Option ModelState :=
  get_instance_by_id instances dct.id

/-- Kind of a class-dict member as the metaclass distinguishes them:
a Property descriptor, an Emitter descriptor, or anything else. -/
inductive MemberKind where
  | prop
  | emitter
  | plain
  deriving DecidableEq, Repr

/-- A newly declared Model subclass as the metaclass sees it: the two
class dicts (in iteration order), the inherited proxy-name lists, and the
other attribute names visible through hasattr on each side. -/
structure ClassDecl where
  name : String
  pyMembers : List (String × MemberKind)
  jsMembers : List (String × MemberKind)
  pyProxyInit : List String
  jsProxyInit : List String
  pyOtherAttrs : List String
  jsOtherAttrs : List String

/-- Evolving state of the metaclass body: the proxy-name lists, the sets of
names visible through hasattr on either side, the stub emitters created,
and the warnings logged. -/
structure MetaState where
  pyProxyProps : List String
  jsProxyProps : List String
  pyAttrs : List String
  jsAttrs : List String
  pyStubEmitters : List String
  warnings : List String
  deriving DecidableEq, Repr

/-- Warning logged when a JS property is not proxied (src lines 92-93). -/
def warnJsNotProxied (name clsName : String) : String :=
  "JS property " ++ name ++ " not proxied on " ++ clsName ++
    ", as it would hide a Py attribute."

/-- Warning logged when a Py property is not proxied (src lines 108-109). -/
def warnPyNotProxied (name clsName : String) : String :=
  "Py property " ++ name ++ " not proxied on " ++ clsName ++
    ", as it would hide a JS attribute."

/-- First metaclass loop (src lines 83-96), one item of cls.JS.__dict__:
a Property gets a Py-side proxy unless already proxied or shadowed by an
existing Py attribute (then a warning); an Emitter gets a Py-side stub
when no Py attribute of that name exists. -/
def metaStep1 (clsName : String) (s : MetaState) (item : String × MemberKind) :
    MetaState :=
  match item.2 with
  | MemberKind.prop =>
      if item.1 ∈ s.jsProxyProps ∨ item.1 ∈ s.pyProxyProps then s
      else if item.1 ∉ s.pyAttrs then
        { s with pyProxyProps := s.pyProxyProps ++ [item.1],
                 pyAttrs := s.pyAttrs ++ [item.1] }
      else
        { s with warnings := s.warnings ++ [warnJsNotProxied item.1 clsName] }
  | MemberKind.emitter =>
      if item.1 ∉ s.pyAttrs then
        { s with pyStubEmitters := s.pyStubEmitters ++ [item.1],
                 pyAttrs := s.pyAttrs ++ [item.1] }
      else s
  | MemberKind.plain => s

/-- Second metaclass loop (src lines 99-112), one item of cls.__dict__:
a Property gets a JS-side proxy unless already proxied or shadowed by an
existing JS attribute (then a warning).  The Emitter branch is transcribed
exactly as the source has it: the guard tests hasattr(cls, name) — the Py
side — and the setattr also targets cls, not cls.JS (src lines 110-112). -/
def metaStep2 (clsName : String) (s : MetaState) (item : String × MemberKind) :
    MetaState :=
  match item.2 with
  | MemberKind.prop =>
      if item.1 ∈ s.jsProxyProps ∨ item.1 ∈ s.pyProxyProps then s
      else if item.1 ∉ s.jsAttrs then
        { s with jsProxyProps := s.jsProxyProps ++ [item.1],
                 jsAttrs := s.jsAttrs ++ [item.1] }
      else
        { s with warnings := s.warnings ++ [warnPyNotProxied item.1 clsName] }
  | MemberKind.emitter =>
      if item.1 ∉ s.pyAttrs then
        { s with pyStubEmitters := s.pyStubEmitters ++ [item.1],
                 pyAttrs := s.pyAttrs ++ [item.1] }
      else s
  | MemberKind.plain => s

/-- Initial metaclass state for a class declaration: the inherited proxy
lists (src lines 79-80), and each side's hasattr view (its own dict, the
inherited proxies and the remaining inherited attributes). -/
def ModelMeta.initState (c : ClassDecl) : MetaState :=
  { pyProxyProps := c.pyProxyInit,
    jsProxyProps := c.jsProxyInit,
    pyAttrs := c.pyMembers.map Prod.fst ++ c.pyProxyInit ++ c.pyOtherAttrs,
    jsAttrs := c.jsMembers.map Prod.fst ++ c.jsProxyInit ++ c.jsOtherAttrs,
    pyStubEmitters := [],
    warnings := [] }

/-- ModelMeta.__init__ proxy synthesis (src lines 78-119): run the first
loop over cls.JS.__dict__, then the second over cls.__dict__.  (The final
in-place sort of the two proxy-name lists at src lines 118-119 only
reorders them and is not modelled; the claims depend on membership only.) -/
def ModelMeta.run (c : ClassDecl) : MetaState :=
  c.pyMembers.foldl (metaStep2 c.name)
    (c.jsMembers.foldl (metaStep1 c.name) (ModelMeta.initState c))

/-- Py-side instance with one property `foo` that is a proxy there
(authoritative on JS). -/
def exPy : ModelState :=
  ⟨"M1", ["foo"], ["foo"], fun _ => 0, fun _ v => v, fun _ => 0, [],
    fun _ => [], [], 0⟩

/-- JS-side twin of `exPy`: `foo` is authoritative there, with validator
`v + 1` so normalization is observable. -/
def exJs : ModelState :=
  ⟨"M1", ["foo"], [], fun _ => 0, fun _ v => v + 1, fun _ => 0, [],
    fun _ => [], [], 0⟩

/-- A side holding one authoritative property `bar` with validator `v + 1`. -/
def exAuth : ModelState :=
  ⟨"M2", ["bar"], [], fun _ => 0, fun _ v => v + 1, fun _ => 0, [],
    fun _ => [], [], 0⟩

/-- A side on which `bar` is a proxy. -/
def exProxyBar : ModelState :=
  ⟨"M3", ["bar"], ["bar"], fun _ => 0, fun _ v => v, fun _ => 0, [],
    fun _ => [], [], 0⟩

/-- C2: the claim is false on the code: setting the proxy `foo` on the Py
side via the public mutator is not rejected — `_set_prop` forwards the raw
value to the JS side (first conjunct), and the JS side, where `foo` is
authoritative, applies it: its stored value changes from 0 to 4. -/
theorem c2_counterexample :
    (Model.set_prop exPy "foo" 3 false).2 = [Cmd.setprop "M1" "foo" 3]
    ∧ (ModelJS.set_prop_from_py exJs true "foo" 3).1.values "foo" = 4
    ∧ exJs.values "foo" = 0 := by
  refine ⟨by decide, by decide, by decide⟩

/-- C2 (amended): a public-mutator set of a proxy property does not change
the proxy side's stored values, but it emits one SETPROP carrying the raw
value; the authoritative side receiving it stores the normalized value and
echoes it; the proxy's own value changes (exactly) in response to an
incoming SETPROP, which is not re-sent. -/
theorem c2_amended (p : ModelState) (n : String) (v : Int)
    (h : n ∈ p.proxyProps) :
    (∀ k, (Model.set_prop p n v false).1.values k = p.values k)
    ∧ (Model.set_prop p n v false).2 = [Cmd.setprop p.id n v]
    ∧ (∀ j : ModelState, n ∉ j.proxyProps →
        (ModelJS.set_prop_from_py j true n v).1.values n = j.norm n v
        ∧ (ModelJS.set_prop_from_py j true n v).2 =
            [Cmd.setprop j.id n (j.norm n v)])
    ∧ (∀ w : Int, (Model.set_prop_from_js p n w).1.values n = w
        ∧ (Model.set_prop_from_js p n w).2 = []) := by
  refine ⟨?_, ?_, ?_, ?_⟩
  · intro k
    simp [Model.set_prop, h]
  · simp [Model.set_prop, h]
  · intro j hj
    constructor
    · simp [ModelJS.set_prop_from_py, ModelJS.set_prop, hj, baseSetProp,
        setValue, effNorm]
    · simp [ModelJS.set_prop_from_py, ModelJS.set_prop, hj, baseSetProp,
        setValue, effNorm]
  · intro w
    constructor
    · simp [Model.set_prop_from_js, Model.set_prop, h, baseSetProp,
        setValue, effNorm, stub_prop_func]
    · simp [Model.set_prop_from_js, Model.set_prop, h]

/-- Witness for c2_amended at the concrete pair exPy/exJs. -/
theorem c2_amended_witness :
    (∀ k, (Model.set_prop exPy "foo" 3 false).1.values k = exPy.values k)
    ∧ (Model.set_prop exPy "foo" 3 false).2 = [Cmd.setprop exPy.id "foo" 3]
    ∧ ((ModelJS.set_prop_from_py exJs true "foo" 3).1.values "foo" =
          exJs.norm "foo" 3
        ∧ (ModelJS.set_prop_from_py exJs true "foo" 3).2 =
            [Cmd.setprop exJs.id "foo" (exJs.norm "foo" 3)])
    ∧ ((Model.set_prop_from_js exPy "foo" 7).1.values "foo" = 7
        ∧ (Model.set_prop_from_js exPy "foo" 7).2 = []) := by
  have h := c2_amended exPy "foo" 3 (by decide)
  exact ⟨h.1, h.2.1, h.2.2.1 exJs (by decide), h.2.2.2 7⟩

/-- C4: the claim is false on the code: an incoming SETPROP (remote origin)
for the property `bar`, authoritative on the receiving side, is answered
with a SETPROP back to the origin carrying the normalized value — the
re-send is not suppressed. -/
theorem c4_counterexample :
    (Model.set_prop_from_js exAuth "bar" 3).2 = [Cmd.setprop "M2" "bar" 4]
    ∧ (Model.set_prop_from_js exAuth "bar" 3).2 ≠ [] := by
  refine ⟨by decide, by decide⟩

/-- C4 (amended): an incoming remote-origin SETPROP for a property
authoritative on the receiving side is applied with normalization, and one
SETPROP carrying the normalized value is sent back to the origin; the
ping-pong then stops, because on the origin side the property is a proxy
and a remote-origin set of a proxy sends nothing. -/
theorem c4_amended (m : ModelState) (n : String) (v : Int)
    (h : n ∉ m.proxyProps) :
    (Model.set_prop_from_js m n v).1.values n = m.norm n v
    ∧ (Model.set_prop_from_js m n v).2 = [Cmd.setprop m.id n (m.norm n v)]
    ∧ (∀ j : ModelState, n ∈ j.proxyProps →
        (ModelJS.set_prop_from_py j true n (m.norm n v)).2 = []) := by
  refine ⟨?_, ?_, ?_⟩
  · simp [Model.set_prop_from_js, Model.set_prop, h, baseSetProp, setValue,
      effNorm]
  · simp [Model.set_prop_from_js, Model.set_prop, h, baseSetProp, setValue,
      effNorm]
  · intro j hj
    simp [ModelJS.set_prop_from_py, ModelJS.set_prop, hj]

/-- Witness for c4_amended at the concrete input exAuth / exProxyBar. -/
theorem c4_amended_witness :
    (Model.set_prop_from_js exAuth "bar" 3).1.values "bar" = exAuth.norm "bar" 3
    ∧ (Model.set_prop_from_js exAuth "bar" 3).2 =
        [Cmd.setprop exAuth.id "bar" (exAuth.norm "bar" 3)]
    ∧ (ModelJS.set_prop_from_py exProxyBar true "bar"
        (exAuth.norm "bar" 3)).2 = [] := by
  have h := c4_amended exAuth "bar" 3 (by decide)
  exact ⟨h.1, h.2.1, h.2.2 exProxyBar (by decide)⟩

/-- C5: the claim is false on the code: with class names "A1" and "A", the
global counter and string concatenation produce the same id "A11" for two
distinct live instances (counter values 1 and 11), so ids are not unique. -/
theorem c5_id_collision :
    ((constructIds ["A1", "B", "B", "B", "B", "B", "B", "B", "B", "B", "A"]).filter
        (fun e => e.2 == "A11")).map Prod.fst = [1, 11] := by
  decide

/-- C6: decode(encode(instance)) on the same side returns the identical
registered live instance, and decoding a reference whose id has no live
owner returns None (the total function yields the absence value, no
error path exists). -/
theorem c6_roundtrip (instances : List (String × ModelState)) (m : ModelState)
    (i : String)
    (h1 : get_instance_by_id instances m.id = some m)
    (h2 : get_instance_by_id instances i = none) :
    Model.from_json instances (Model.json m) = some m
    ∧ Model.from_json instances { type_tag := "Flexx-Model", id := i } = none :=
  ⟨h1, h2⟩

/-- Registry holding exactly the instance exPy under its id. -/
def exReg : List (String × ModelState) := [("M1", exPy)]

/-- Witness for c6_roundtrip at the concrete registry exReg. -/
theorem c6_roundtrip_witness :
    Model.from_json exReg (Model.json exPy) = some exPy
    ∧ Model.from_json exReg { type_tag := "Flexx-Model", id := "ZZ" } = none :=
  c6_roundtrip exReg exPy "ZZ" (by rfl) (by rfl)

/-- C7: when the emitted type is absent from the locally held interest set
of the other side, a local emission runs the local handlers (the base
emission with the local handler list) but sends zero EVENT commands. -/
theorem c7_no_forward (m : ModelState) (ts : List String) (t : String) (e : Int)
    (h : t ∉ ts) :
    (Model.emit (Model.set_event_types_js m ts) t e false).2 = []
    ∧ (Model.emit (Model.set_event_types_js m ts) t e false).1 =
        { type := t, ev := e, fromjs := false,
          handlersRun := m.localHandlers t } := by
  constructor
  · simp [Model.emit, Model.set_event_types_js, h]
  · unfold Model.emit
    split <;> rfl

/-- Witness for c7_no_forward at a concrete emission on exPy. -/
theorem c7_no_forward_witness :
    (Model.emit (Model.set_event_types_js exPy ["other"]) "ping" 1 false).2 = []
    ∧ (Model.emit (Model.set_event_types_js exPy ["other"]) "ping" 1 false).1 =
        { type := "ping", ev := 1, fromjs := false,
          handlersRun := exPy.localHandlers "ping" } :=
  c7_no_forward exPy ["other"] "ping" 1 (by decide)

/-- A class declaring the emitter `tick` only on the Python side and the
emitter `click` only on the JS side. -/
def exEmitterClass : ClassDecl :=
  ⟨"EmEx", [("tick", MemberKind.emitter)], [("click", MemberKind.emitter)],
    [], [], [], []⟩

/-- C8: evaluation at the failing input: the JS-only emitter `click` does
get a Py-side stub that raises when called from Python, but the Py-only
emitter `tick` produces nothing on the JS side — the second loop's guard
`not hasattr(cls, name)` tests the Python side, where `tick` always
exists, so no JS-side proxy emitter is ever created. -/
theorem c8_py_emitter_not_proxied :
    (ModelMeta.run exEmitterClass).pyStubEmitters = ["click"]
    ∧ "tick" ∉ (ModelMeta.run exEmitterClass).jsAttrs
    ∧ (ModelMeta.run exEmitterClass).jsProxyProps = []
    ∧ stub_emitter_func_py [] =
        Except.error "This emitter can only be called from JavaScript"
    ∧ stub_emitter_func_js [] =
        Except.error "This emitter can only be called from Python" :=
  ⟨by decide, by decide, by decide, rfl, rfl⟩

/-- C10: the claim is false on the code: with no websocket, `_set_prop`
delegates to the base-class setter, which still applies the property's
validator — for the authoritative `bar` (validator v + 1) the given value
3 is stored as 4, not "directly without normalization".  No command is
sent. -/
theorem c10_counterexample :
    (ModelJS.set_prop exAuth false "bar" 3 false).1.values "bar" = 4
    ∧ ¬ (ModelJS.set_prop exAuth false "bar" 3 false).1.values "bar" = 3
    ∧ (ModelJS.set_prop exAuth false "bar" 3 false).2 = [] := by
  refine ⟨by decide, by decide, by decide⟩

/-- C10 (amended): with no websocket connection, `_set_prop` returns the
base-class setter's result for every property — proxy or authoritative,
whatever the origin flag — storing the value after the base validation
(the identity for proxies, whose validator is the stub), and sends no
SETPROP command; the proxy guard and the send logic are skipped. -/
theorem c10_amended (m : ModelState) (n : String) (v : Int) (fp : Bool) :
    (∀ k, (ModelJS.set_prop m false n v fp).1.values k =
        if k = n then effNorm m n v else m.values k)
    ∧ (ModelJS.set_prop m false n v fp).2 = [] := by
  constructor
  · intro k
    simp [ModelJS.set_prop, baseSetProp, setValue]
  · simp [ModelJS.set_prop]

lemma emit_from_js_pending (m : ModelState) (t : String) (e : Int) :
    (Model.emit_from_js m t e).pendingFromJs = m.pendingFromJs ++ [(t, e)] := by
  simp only [Model.emit_from_js]
  split <;> rfl

lemma emit_from_js_scheduled (m : ModelState) (t : String) (e : Int) :
    (Model.emit_from_js m t e).scheduled =
      if m.pendingFromJs = [] then m.scheduled + 1 else m.scheduled := by
  simp only [Model.emit_from_js]
  split <;> rfl

lemma emit_from_js_localHandlers (m : ModelState) (t : String) (e : Int) :
    (Model.emit_from_js m t e).localHandlers = m.localHandlers := by
  simp only [Model.emit_from_js]
  split <;> rfl

lemma arriveAll_cons (m : ModelState) (te : String × Int)
    (evs : List (String × Int)) :
    arriveAll m (te :: evs) = arriveAll (Model.emit_from_js m te.1 te.2) evs := rfl

lemma arriveAll_pending (evs : List (String × Int)) :
    ∀ m : ModelState, (arriveAll m evs).pendingFromJs = m.pendingFromJs ++ evs := by
  induction evs with
  | nil => intro m; simp [arriveAll]
  | cons te rest ih =>
      intro m
      rw [arriveAll_cons, ih, emit_from_js_pending]
      simp

lemma arriveAll_localHandlers (evs : List (String × Int)) :
    ∀ m : ModelState, (arriveAll m evs).localHandlers = m.localHandlers := by
  induction evs with
  | nil => intro m; rfl
  | cons te rest ih =>
      intro m
      rw [arriveAll_cons, ih, emit_from_js_localHandlers]

lemma arriveAll_scheduled_of_ne (evs : List (String × Int)) :
    ∀ m : ModelState, m.pendingFromJs ≠ [] →
      (arriveAll m evs).scheduled = m.scheduled := by
  induction evs with
  | nil => intro m _; rfl
  | cons te rest ih =>
      intro m h
      rw [arriveAll_cons, ih _ (by simp [emit_from_js_pending]),
        emit_from_js_scheduled, if_neg h]

lemma emit_true_fst (m : ModelState) (t : String) (e : Int) :
    (Model.emit m t e true).1 =
      { type := t, ev := e, fromjs := true, handlersRun := m.localHandlers t } := by
  simp only [Model.emit]
  split <;> rfl

lemma emit_true_snd (m : ModelState) (t : String) (e : Int) :
    (Model.emit m t e true).2 = [] := by
  simp [Model.emit]

lemma drain_fold (m : ModelState) (pending : List (String × Int))
    (acc1 : List Emission) (acc2 : List Cmd) :
    pending.foldl
        (fun (acc : List Emission × List Cmd) te =>
          let ec := Model.emit m te.1 te.2 true
          (acc.1 ++ [ec.1], acc.2 ++ ec.2))
        (acc1, acc2)
      = (acc1 ++ pending.map
            (fun te => { type := te.1, ev := te.2, fromjs := true,
                         handlersRun := m.localHandlers te.1 }),
         acc2) := by
  induction pending generalizing acc1 acc2 with
  | nil => simp
  | cons te rest ih =>
      rw [List.foldl_cons]
      have hacc :
          (let ec := Model.emit m te.1 te.2 true;
            ((acc1, acc2).1 ++ [ec.1], (acc1, acc2).2 ++ ec.2))
          = (acc1 ++ [{ type := te.1, ev := te.2, fromjs := true,
                        handlersRun := m.localHandlers te.1 }], acc2) := by
        simp [emit_true_fst, emit_true_snd]
      rw [hacc, ih]
      simp

lemma emit_pending_char (m : ModelState) :
    Model.emit_pending_from_js m =
      ({ m with pendingFromJs := [] },
        m.pendingFromJs.map
          (fun te => { type := te.1, ev := te.2, fromjs := true,
                       handlersRun := m.localHandlers te.1 }),
        []) := by
  simp only [Model.emit_pending_from_js]
  rw [drain_fold]
  simp

/-- C3: N remote-originated events all arriving (via _emit_from_js) while
the pending queue is empty schedule exactly one deferred drain; that drain
clears the queue and emits all N events locally, in arrival order, each
tagged remote-origin, and forwards none of them back (zero commands). -/
theorem c3_single_drain (m : ModelState) (events : List (String × Int))
    (h0 : m.pendingFromJs = []) (hne : events ≠ []) :
    (arriveAll m events).scheduled = m.scheduled + 1
    ∧ (arriveAll m events).pendingFromJs = events
    ∧ (Model.emit_pending_from_js (arriveAll m events)).2.1 =
        events.map (fun te => { type := te.1, ev := te.2, fromjs := true,
                                handlersRun := m.localHandlers te.1 })
    ∧ (Model.emit_pending_from_js (arriveAll m events)).2.2 = []
    ∧ (Model.emit_pending_from_js (arriveAll m events)).1.pendingFromJs = [] := by
  obtain ⟨te, rest, rfl⟩ := List.exists_cons_of_ne_nil hne
  have hpend : (arriveAll m (te :: rest)).pendingFromJs = te :: rest := by
    rw [arriveAll_pending, h0, List.nil_append]
  have hlh : (arriveAll m (te :: rest)).localHandlers = m.localHandlers :=
    arriveAll_localHandlers _ _
  refine ⟨?_, hpend, ?_, ?_, ?_⟩
  · rw [arriveAll_cons,
      arriveAll_scheduled_of_ne _ _ (by simp [emit_from_js_pending]),
      emit_from_js_scheduled, if_pos h0]
  · rw [emit_pending_char]
    simp [hpend, hlh]
  · rw [emit_pending_char]
  · rw [emit_pending_char]

/-- Witness for c3_single_drain: a three-event burst on exPy. -/
theorem c3_single_drain_witness :
    (arriveAll exPy [("a", 1), ("b", 2), ("c", 3)]).scheduled = exPy.scheduled + 1
    ∧ (arriveAll exPy [("a", 1), ("b", 2), ("c", 3)]).pendingFromJs =
        [("a", 1), ("b", 2), ("c", 3)]
    ∧ (Model.emit_pending_from_js (arriveAll exPy [("a", 1), ("b", 2), ("c", 3)])).2.1 =
        [("a", 1), ("b", 2), ("c", 3)].map
          (fun te => { type := te.1, ev := te.2, fromjs := true,
                       handlersRun := exPy.localHandlers te.1 })
    ∧ (Model.emit_pending_from_js (arriveAll exPy [("a", 1), ("b", 2), ("c", 3)])).2.2 = []
    ∧ (Model.emit_pending_from_js (arriveAll exPy [("a", 1), ("b", 2), ("c", 3)])).1.pendingFromJs = [] :=
  c3_single_drain exPy [("a", 1), ("b", 2), ("c", 3)] (by rfl) (by decide)

/-- Test whether a command is a SETPROP for the given property name. -/
def isSetpropFor (n : String) : Cmd → Bool
  | Cmd.setprop _ p _ => p == n
  | _ => false

lemma init_prop_fst_id (m : ModelState) (n : String) :
    ((Model.init_prop m n).1).id = m.id := by
  simp only [Model.init_prop]
  split <;> rfl

lemma init_prop_fst_proxyProps (m : ModelState) (n : String) :
    ((Model.init_prop m n).1).proxyProps = m.proxyProps := by
  simp only [Model.init_prop]
  split <;> rfl

lemma init_prop_fst_defaults (m : ModelState) (n : String) :
    ((Model.init_prop m n).1).defaults = m.defaults := by
  simp only [Model.init_prop]
  split <;> rfl

lemma init_prop_fst_norm (m : ModelState) (n : String) :
    ((Model.init_prop m n).1).norm = m.norm := by
  simp only [Model.init_prop]
  split <;> rfl

lemma init_prop_cmds (m : ModelState) (n : String) :
    (Model.init_prop m n).2 =
      if n ∈ m.proxyProps then []
      else [Cmd.setprop m.id n (m.norm n (m.defaults n))] := by
  simp only [Model.init_prop]
  by_cases h : n ∈ m.proxyProps
  · simp [h]
  · simp [h, baseInitProp, baseSetProp, effNorm, setValue]

lemma set_prop_cmds_local_auth (m : ModelState) (n : String) (v : Int)
    (h : n ∉ m.proxyProps) :
    (Model.set_prop m n v false).2 = [Cmd.setprop m.id n (m.norm n v)] := by
  simp [Model.set_prop, h, baseSetProp, setValue, effNorm]

lemma constructStep_none (acc : ModelState × List Cmd) (p : String) :
    constructStep [] acc p =
      ((Model.init_prop acc.1 p).1, acc.2 ++ (Model.init_prop acc.1 p).2) := rfl

lemma fold_init_fields (ps : List String) :
    ∀ (m : ModelState) (cs : List Cmd),
      (ps.foldl (constructStep []) (m, cs)).1.id = m.id
      ∧ (ps.foldl (constructStep []) (m, cs)).1.proxyProps = m.proxyProps
      ∧ (ps.foldl (constructStep []) (m, cs)).1.defaults = m.defaults
      ∧ (ps.foldl (constructStep []) (m, cs)).1.norm = m.norm := by
  induction ps with
  | nil => intro m cs; exact ⟨rfl, rfl, rfl, rfl⟩
  | cons p rest ih =>
      intro m cs
      rw [List.foldl_cons, constructStep_none]
      refine ⟨?_, ?_, ?_, ?_⟩
      · rw [(ih _ _).1, init_prop_fst_id]
      · rw [(ih _ _).2.1, init_prop_fst_proxyProps]
      · rw [(ih _ _).2.2.1, init_prop_fst_defaults]
      · rw [(ih _ _).2.2.2, init_prop_fst_norm]

lemma fold_init_cmds (ps : List String) :
    ∀ (m : ModelState) (cs : List Cmd),
      (ps.foldl (constructStep []) (m, cs)).2 =
        cs ++ ps.flatMap (fun p =>
          if p ∈ m.proxyProps then []
          else [Cmd.setprop m.id p (m.norm p (m.defaults p))]) := by
  induction ps with
  | nil => intro m cs; simp
  | cons p rest ih =>
      intro m cs
      rw [List.foldl_cons, constructStep_none, ih, init_prop_fst_proxyProps,
        init_prop_fst_id, init_prop_fst_norm, init_prop_fst_defaults,
        init_prop_cmds]
      simp [List.flatMap_cons, List.append_assoc]

lemma expected_filter_not_mem (i : String) (P : List String) (g : String → Int)
    (n : String) :
    ∀ ps : List String, n ∉ ps →
      ((ps.flatMap fun p =>
          if p ∈ P then [] else [Cmd.setprop i p (g p)]).filter
        (isSetpropFor n)) = [] := by
  intro ps
  induction ps with
  | nil => intro _; simp
  | cons p rest ih =>
      intro h
      have hp : p ≠ n := fun hh => h (hh ▸ List.mem_cons_self _ _)
      rw [List.flatMap_cons, List.filter_append,
        ih (fun hh => h (List.mem_cons_of_mem _ hh))]
      by_cases hP : p ∈ P
      · simp [hP]
      · simp [hP, isSetpropFor, hp]

lemma expected_filter_mem (i : String) (P : List String) (g : String → Int)
    (n : String) :
    ∀ ps : List String, ps.Nodup → n ∈ ps → n ∉ P →
      ((ps.flatMap fun p =>
          if p ∈ P then [] else [Cmd.setprop i p (g p)]).filter
        (isSetpropFor n)) = [Cmd.setprop i n (g n)] := by
  intro ps
  induction ps with
  | nil => intro _ hmem _; exact absurd hmem (List.not_mem_nil n)
  | cons p rest ih =>
      intro hnd hmem hnP
      rw [List.flatMap_cons, List.filter_append]
      rcases List.mem_cons.mp hmem with rfl | hmem2
      · rw [expected_filter_not_mem i P g n rest (List.nodup_cons.mp hnd).1]
        simp [hnP, isSetpropFor]
      · have hp : p ≠ n := by
          rintro rfl
          exact (List.nodup_cons.mp hnd).1 hmem2
        rw [ih (List.nodup_cons.mp hnd).2 hmem2 hnP]
        by_cases hP : p ∈ P
        · simp [hP]
        · simp [hP, isSetpropFor, hp]

lemma filter_shape (i : String) (ets : List String) (P : List String)
    (g : String → Int) (n : String) (ps : List String)
    (hd : ps.Nodup) (hn : n ∈ ps) (hnP : n ∉ P) :
    ((Cmd.instantiate i ets ::
        ps.flatMap (fun p => if p ∈ P then [] else [Cmd.setprop i p (g p)])).filter
      (isSetpropFor n)) = [Cmd.setprop i n (g n)] := by
  rw [List.filter_cons]
  simp only [isSetpropFor]
  rw [if_neg (by simp)]
  exact expected_filter_mem i P g n ps hd hn hnP

lemma count_shape (i : String) (ets : List String) (P : List String)
    (g : String → Int) (n : String) (w : Int) (ps : List String)
    (hd : ps.Nodup) (hn : n ∈ ps) (hnP : n ∉ P) (hne : w ≠ g n) :
    ((Cmd.instantiate i ets ::
        ps.flatMap (fun p => if p ∈ P then [] else [Cmd.setprop i p (g p)]))
        ++ [Cmd.setprop i n w]).count (Cmd.setprop i n (g n)) = 1 := by
  have hcf :
      ((ps.flatMap (fun p => if p ∈ P then [] else [Cmd.setprop i p (g p)])).filter
          (isSetpropFor n)).count (Cmd.setprop i n (g n)) =
        (ps.flatMap (fun p => if p ∈ P then [] else [Cmd.setprop i p (g p)])).count
          (Cmd.setprop i n (g n)) :=
    List.count_filter (by simp [isSetpropFor])
  have hFM :
      (ps.flatMap (fun p => if p ∈ P then [] else [Cmd.setprop i p (g p)])).count
          (Cmd.setprop i n (g n)) = 1 := by
    rw [← hcf, expected_filter_mem i P g n ps hd hn hnP]
    simp
  rw [List.count_append, List.count_cons, hFM]
  simp [List.count_singleton', hne]

/-- C1: constructing an instance (no explicit initial values, so every
property receives its default) emits exactly one SETPROP for each non-proxy
property, carrying the normalized default; a later public set emits exactly
one SETPROP carrying the normalized new value; and when the new value
differs from the default, the whole command stream contains the initial
SETPROP exactly once — it is never re-sent. -/
theorem c1_initial_setprop_once (cls : ModelClass) (k : Nat) (n : String)
    (v : Int) (hn : n ∈ cls.props) (hnp : n ∉ cls.proxyProps)
    (hd : cls.props.Nodup) :
    ((Model.construct cls k []).2.2.filter (isSetpropFor n))
        = [Cmd.setprop (makeId cls.name (k + 1)) n (cls.norm n (cls.defaults n))]
    ∧ (Model.set_prop (Model.construct cls k []).2.1 n v false).2
        = [Cmd.setprop (makeId cls.name (k + 1)) n (cls.norm n v)]
    ∧ (cls.norm n v ≠ cls.norm n (cls.defaults n) →
        ((Model.construct cls k []).2.2
            ++ (Model.set_prop (Model.construct cls k []).2.1 n v false).2).count
          (Cmd.setprop (makeId cls.name (k + 1)) n (cls.norm n (cls.defaults n)))
          = 1) := by
  have hcmds : (Model.construct cls k []).2.2 =
      Cmd.instantiate (makeId cls.name (k + 1)) cls.eventTypesPy ::
        cls.props.flatMap (fun p =>
          if p ∈ cls.proxyProps then []
          else [Cmd.setprop (makeId cls.name (k + 1)) p
                  (cls.norm p (cls.defaults p))]) := by
    simp only [Model.construct]
    rw [fold_init_cmds]
    simp
  have hid : (Model.construct cls k []).2.1.id = makeId cls.name (k + 1) := by
    simp only [Model.construct]
    rw [(fold_init_fields _ _ _).1]
  have hpp : (Model.construct cls k []).2.1.proxyProps = cls.proxyProps := by
    simp only [Model.construct]
    rw [(fold_init_fields _ _ _).2.1]
  have hnm : (Model.construct cls k []).2.1.norm = cls.norm := by
    simp only [Model.construct]
    rw [(fold_init_fields _ _ _).2.2.2]
  have hsp : (Model.set_prop (Model.construct cls k []).2.1 n v false).2
      = [Cmd.setprop (makeId cls.name (k + 1)) n (cls.norm n v)] := by
    rw [set_prop_cmds_local_auth _ _ _ (by rw [hpp]; exact hnp), hid, hnm]
  refine ⟨?_, hsp, ?_⟩
  · rw [hcmds]
    exact filter_shape _ _ _ _ _ _ hd hn hnp
  · intro hne
    rw [hcmds, hsp]
    exact count_shape (makeId cls.name (k + 1)) cls.eventTypesPy cls.proxyProps
      (fun p => cls.norm p (cls.defaults p)) n (cls.norm n v) cls.props
      hd hn hnp hne

/-- The Counter class of the C1 scenario: one host-authoritative property
`count` with default 0 and identity validator. -/
def clsCounter : ModelClass :=
  ⟨"Counter", ["count"], [], fun _ => 0, fun _ v => v, [], [], fun _ => []⟩

/-- Witness for c1_initial_setprop_once: constructing one Counter emits
exactly one SETPROP count 0; setting count = 5 afterwards emits exactly
one SETPROP count 5; the initial 0 appears exactly once in the stream. -/
theorem c1_initial_setprop_once_witness :
    ((Model.construct clsCounter 0 []).2.2.filter (isSetpropFor "count"))
        = [Cmd.setprop (makeId clsCounter.name 1) "count"
            (clsCounter.norm "count" (clsCounter.defaults "count"))]
    ∧ (Model.set_prop (Model.construct clsCounter 0 []).2.1 "count" 5 false).2
        = [Cmd.setprop (makeId clsCounter.name 1) "count"
            (clsCounter.norm "count" 5)]
    ∧ ((Model.construct clsCounter 0 []).2.2
          ++ (Model.set_prop (Model.construct clsCounter 0 []).2.1 "count" 5
              false).2).count
        (Cmd.setprop (makeId clsCounter.name 1) "count"
          (clsCounter.norm "count" (clsCounter.defaults "count"))) = 1 := by
  have h := c1_initial_setprop_once clsCounter 0 "count" 5 (by decide) (by decide)
    (by decide)
  exact ⟨h.1, h.2.1, h.2.2 (by decide)⟩


lemma metaStep1_jsProxyProps (cn : String) (s : MetaState)
    (it : String × MemberKind) :
    (metaStep1 cn s it).jsProxyProps = s.jsProxyProps := by
  rcases it with ⟨nm, k⟩
  cases k with
  | prop => simp only [metaStep1]; split_ifs <;> rfl
  | emitter => simp only [metaStep1]; split_ifs <;> rfl
  | plain => rfl

lemma metaStep1_jsAttrs (cn : String) (s : MetaState)
    (it : String × MemberKind) :
    (metaStep1 cn s it).jsAttrs = s.jsAttrs := by
  rcases it with ⟨nm, k⟩
  cases k with
  | prop => simp only [metaStep1]; split_ifs <;> rfl
  | emitter => simp only [metaStep1]; split_ifs <;> rfl
  | plain => rfl

lemma metaStep1_warn_mono (cn : String) (s : MetaState)
    (it : String × MemberKind) (w : String) (h : w ∈ s.warnings) :
    w ∈ (metaStep1 cn s it).warnings := by
  rcases it with ⟨nm, k⟩
  cases k with
  | prop => simp only [metaStep1]; split_ifs <;> simp [h]
  | emitter => simp only [metaStep1]; split_ifs <;> simp [h]
  | plain => exact h

lemma metaStep1_pyai (cn : String) (s : MetaState) (it : String × MemberKind)
    (n : String) (h1 : n ∈ s.pyAttrs) (h2 : n ∉ s.pyProxyProps) :
    n ∈ (metaStep1 cn s it).pyAttrs ∧ n ∉ (metaStep1 cn s it).pyProxyProps := by
  rcases it with ⟨nm, k⟩
  cases k with
  | prop =>
      simp only [metaStep1]
      split_ifs with hA hB
      · exact ⟨h1, h2⟩
      · exact ⟨h1, h2⟩
      · refine ⟨by simp [h1], ?_⟩
        show ¬ (n ∈ s.pyProxyProps ++ [nm])
        simp only [List.mem_append, List.mem_singleton]
        rintro (hc | rfl)
        · exact h2 hc
        · exact hB h1
  | emitter =>
      simp only [metaStep1]
      split_ifs with hA
      · exact ⟨h1, h2⟩
      · exact ⟨by simp [h1], h2⟩
  | plain => exact ⟨h1, h2⟩

lemma metaStep1_pyProxy_keep (cn : String) (s : MetaState)
    (it : String × MemberKind) (n : String) (hname : it.1 ≠ n)
    (h : n ∉ s.pyProxyProps) : n ∉ (metaStep1 cn s it).pyProxyProps := by
  rcases it with ⟨nm, k⟩
  cases k with
  | prop =>
      simp only [metaStep1]
      split_ifs with hA hB
      · exact h
      · exact h
      · show ¬ (n ∈ s.pyProxyProps ++ [nm])
        simp only [List.mem_append, List.mem_singleton]
        rintro (hc | rfl)
        · exact h hc
        · exact hname rfl
  | emitter =>
      simp only [metaStep1]
      split_ifs with hA
      · exact h
      · exact h
  | plain => exact h

lemma metaStep2_pyProxyProps (cn : String) (s : MetaState)
    (it : String × MemberKind) :
    (metaStep2 cn s it).pyProxyProps = s.pyProxyProps := by
  rcases it with ⟨nm, k⟩
  cases k with
  | prop => simp only [metaStep2]; split_ifs <;> rfl
  | emitter => simp only [metaStep2]; split_ifs <;> rfl
  | plain => rfl

lemma metaStep2_warn_mono (cn : String) (s : MetaState)
    (it : String × MemberKind) (w : String) (h : w ∈ s.warnings) :
    w ∈ (metaStep2 cn s it).warnings := by
  rcases it with ⟨nm, k⟩
  cases k with
  | prop => simp only [metaStep2]; split_ifs <;> simp [h]
  | emitter => simp only [metaStep2]; split_ifs <;> simp [h]
  | plain => exact h

lemma metaStep2_jsai (cn : String) (s : MetaState) (it : String × MemberKind)
    (n : String) (h1 : n ∈ s.jsAttrs) (h2 : n ∉ s.jsProxyProps) :
    n ∈ (metaStep2 cn s it).jsAttrs ∧ n ∉ (metaStep2 cn s it).jsProxyProps := by
  rcases it with ⟨nm, k⟩
  cases k with
  | prop =>
      simp only [metaStep2]
      split_ifs with hA hB
      · exact ⟨h1, h2⟩
      · exact ⟨h1, h2⟩
      · refine ⟨by simp [h1], ?_⟩
        show ¬ (n ∈ s.jsProxyProps ++ [nm])
        simp only [List.mem_append, List.mem_singleton]
        rintro (hc | rfl)
        · exact h2 hc
        · exact hB h1
  | emitter =>
      simp only [metaStep2]
      split_ifs with hA
      · exact ⟨h1, h2⟩
      · exact ⟨h1, h2⟩
  | plain => exact ⟨h1, h2⟩

lemma fold1_jsProxyProps (cn : String) (items : List (String × MemberKind)) :
    ∀ s : MetaState,
      (items.foldl (metaStep1 cn) s).jsProxyProps = s.jsProxyProps := by
  induction items with
  | nil => intro s; rfl
  | cons it rest ih =>
      intro s
      rw [List.foldl_cons, ih, metaStep1_jsProxyProps]

lemma fold1_jsAttrs (cn : String) (items : List (String × MemberKind)) :
    ∀ s : MetaState, (items.foldl (metaStep1 cn) s).jsAttrs = s.jsAttrs := by
  induction items with
  | nil => intro s; rfl
  | cons it rest ih =>
      intro s
      rw [List.foldl_cons, ih, metaStep1_jsAttrs]

lemma fold1_warn (cn : String) (items : List (String × MemberKind)) (w : String) :
    ∀ s : MetaState, w ∈ s.warnings →
      w ∈ (items.foldl (metaStep1 cn) s).warnings := by
  induction items with
  | nil => intro s h; exact h
  | cons it rest ih =>
      intro s h
      rw [List.foldl_cons]
      exact ih _ (metaStep1_warn_mono cn s it w h)

lemma fold1_pyai (cn : String) (items : List (String × MemberKind)) (n : String) :
    ∀ s : MetaState, n ∈ s.pyAttrs → n ∉ s.pyProxyProps →
      n ∈ (items.foldl (metaStep1 cn) s).pyAttrs
      ∧ n ∉ (items.foldl (metaStep1 cn) s).pyProxyProps := by
  induction items with
  | nil => intro s h1 h2; exact ⟨h1, h2⟩
  | cons it rest ih =>
      intro s h1 h2
      rw [List.foldl_cons]
      obtain ⟨a, b⟩ := metaStep1_pyai cn s it n h1 h2
      exact ih _ a b

lemma fold1_pyProxy_keep (cn : String) (items : List (String × MemberKind))
    (n : String) :
    ∀ s : MetaState, (∀ it ∈ items, it.1 ≠ n) → n ∉ s.pyProxyProps →
      n ∉ (items.foldl (metaStep1 cn) s).pyProxyProps := by
  induction items with
  | nil => intro s _ h; exact h
  | cons it rest ih =>
      intro s hnames h
      rw [List.foldl_cons]
      exact ih _ (fun x hx => hnames x (List.mem_cons_of_mem _ hx))
        (metaStep1_pyProxy_keep cn s it n (hnames it (List.mem_cons_self _ _)) h)

lemma fold2_pyProxyProps (cn : String) (items : List (String × MemberKind)) :
    ∀ s : MetaState,
      (items.foldl (metaStep2 cn) s).pyProxyProps = s.pyProxyProps := by
  induction items with
  | nil => intro s; rfl
  | cons it rest ih =>
      intro s
      rw [List.foldl_cons, ih, metaStep2_pyProxyProps]

lemma fold2_warn (cn : String) (items : List (String × MemberKind)) (w : String) :
    ∀ s : MetaState, w ∈ s.warnings →
      w ∈ (items.foldl (metaStep2 cn) s).warnings := by
  induction items with
  | nil => intro s h; exact h
  | cons it rest ih =>
      intro s h
      rw [List.foldl_cons]
      exact ih _ (metaStep2_warn_mono cn s it w h)

lemma fold2_jsai (cn : String) (items : List (String × MemberKind)) (n : String) :
    ∀ s : MetaState, n ∈ s.jsAttrs → n ∉ s.jsProxyProps →
      n ∈ (items.foldl (metaStep2 cn) s).jsAttrs
      ∧ n ∉ (items.foldl (metaStep2 cn) s).jsProxyProps := by
  induction items with
  | nil => intro s h1 h2; exact ⟨h1, h2⟩
  | cons it rest ih =>
      intro s h1 h2
      rw [List.foldl_cons]
      obtain ⟨a, b⟩ := metaStep2_jsai cn s it n h1 h2
      exact ih _ a b

lemma metaStep1_warn_hit (cn : String) (s : MetaState) (n : String)
    (h1 : n ∈ s.pyAttrs) (h2 : n ∉ s.pyProxyProps) (h3 : n ∉ s.jsProxyProps) :
    warnJsNotProxied n cn ∈
      (metaStep1 cn s (n, MemberKind.prop)).warnings := by
  simp only [metaStep1]
  rw [if_neg (not_or.mpr ⟨h3, h2⟩), if_neg (not_not_intro h1)]
  simp

lemma metaStep2_warn_hit (cn : String) (s : MetaState) (n : String)
    (h1 : n ∈ s.jsAttrs) (h2 : n ∉ s.jsProxyProps) (h3 : n ∉ s.pyProxyProps) :
    warnPyNotProxied n cn ∈
      (metaStep2 cn s (n, MemberKind.prop)).warnings := by
  simp only [metaStep2]
  rw [if_neg (not_or.mpr ⟨h2, h3⟩), if_neg (not_not_intro h1)]
  simp

/-- C9: a proxy-property collision is non-fatal in both directions.  When a
JS-declared property `n` collides with a pre-existing non-proxy Python
attribute, and a Python-declared property `n2` collides with a pre-existing
non-proxy JS attribute, the metaclass skips both proxies, logs both
diagnostics, and still completes class building (the remaining members are
processed; `ModelMeta.run` is total). -/
theorem c9_proxy_collision_nonfatal (c : ClassDecl) (n n2 : String)
    (pre1 post1 pre2 post2 : List (String × MemberKind))
    (hs1 : c.jsMembers = pre1 ++ (n, MemberKind.prop) :: post1)
    (ha1 : n ∈ (ModelMeta.initState c).pyAttrs)
    (hp1 : n ∉ c.pyProxyInit)
    (hp2 : n ∉ c.jsProxyInit)
    (hs2 : c.pyMembers = pre2 ++ (n2, MemberKind.prop) :: post2)
    (ha2 : n2 ∈ (ModelMeta.initState c).jsAttrs)
    (hq1 : n2 ∉ c.jsProxyInit)
    (hq2 : n2 ∉ c.pyProxyInit)
    (hq3 : ∀ it ∈ c.jsMembers, it.1 ≠ n2) :
    (warnJsNotProxied n c.name ∈ (ModelMeta.run c).warnings
      ∧ n ∉ (ModelMeta.run c).pyProxyProps)
    ∧ (warnPyNotProxied n2 c.name ∈ (ModelMeta.run c).warnings
      ∧ n2 ∉ (ModelMeta.run c).jsProxyProps) := by
  have hrun : ModelMeta.run c =
      c.pyMembers.foldl (metaStep2 c.name)
        (c.jsMembers.foldl (metaStep1 c.name) (ModelMeta.initState c)) := rfl
  have h1split : c.jsMembers.foldl (metaStep1 c.name) (ModelMeta.initState c)
      = post1.foldl (metaStep1 c.name)
          (metaStep1 c.name
            (pre1.foldl (metaStep1 c.name) (ModelMeta.initState c))
            (n, MemberKind.prop)) := by
    rw [hs1, List.foldl_append, List.foldl_cons]
  have hp1' : n ∉ (ModelMeta.initState c).pyProxyProps := hp1
  have hp2' : n ∉ (ModelMeta.initState c).jsProxyProps := hp2
  obtain ⟨hA1, hA2⟩ :=
    fold1_pyai c.name pre1 n (ModelMeta.initState c) ha1 hp1'
  have hA3 : n ∉ (pre1.foldl (metaStep1 c.name)
      (ModelMeta.initState c)).jsProxyProps := by
    rw [fold1_jsProxyProps]
    exact hp2'
  have hw1 : warnJsNotProxied n c.name ∈
      (metaStep1 c.name (pre1.foldl (metaStep1 c.name) (ModelMeta.initState c))
        (n, MemberKind.prop)).warnings :=
    metaStep1_warn_hit c.name _ n hA1 hA2 hA3
  obtain ⟨hB1, hB2⟩ := metaStep1_pyai c.name _ (n, MemberKind.prop) n hA1 hA2
  obtain ⟨hC1, hC2⟩ := fold1_pyai c.name post1 n _ hB1 hB2
  have hw2 := fold1_warn c.name post1 _ _ hw1
  have conc1a : warnJsNotProxied n c.name ∈ (ModelMeta.run c).warnings := by
    rw [hrun, h1split]
    exact fold2_warn c.name c.pyMembers _ _ hw2
  have conc1b : n ∉ (ModelMeta.run c).pyProxyProps := by
    rw [hrun, h1split, fold2_pyProxyProps]
    exact hC2
  have hD1 : n2 ∈ (c.jsMembers.foldl (metaStep1 c.name)
      (ModelMeta.initState c)).jsAttrs := by
    rw [fold1_jsAttrs]
    exact ha2
  have hD2 : n2 ∉ (c.jsMembers.foldl (metaStep1 c.name)
      (ModelMeta.initState c)).jsProxyProps := by
    rw [fold1_jsProxyProps]
    exact hq1
  have hD3 : n2 ∉ (c.jsMembers.foldl (metaStep1 c.name)
      (ModelMeta.initState c)).pyProxyProps :=
    fold1_pyProxy_keep c.name c.jsMembers n2 _ hq3 hq2
  have h2split : ModelMeta.run c
      = post2.foldl (metaStep2 c.name)
          (metaStep2 c.name
            (pre2.foldl (metaStep2 c.name)
              (c.jsMembers.foldl (metaStep1 c.name) (ModelMeta.initState c)))
            (n2, MemberKind.prop)) := by
    rw [hrun, hs2, List.foldl_append, List.foldl_cons]
  obtain ⟨hE1, hE2⟩ := fold2_jsai c.name pre2 n2 _ hD1 hD2
  have hE3 : n2 ∉ (pre2.foldl (metaStep2 c.name)
      (c.jsMembers.foldl (metaStep1 c.name)
        (ModelMeta.initState c))).pyProxyProps := by
    rw [fold2_pyProxyProps]
    exact hD3
  have hw3 := metaStep2_warn_hit c.name _ n2 hE1 hE2 hE3
  obtain ⟨hF1, hF2⟩ := metaStep2_jsai c.name _ (n2, MemberKind.prop) n2 hE1 hE2
  obtain ⟨hG1, hG2⟩ := fold2_jsai c.name post2 n2 _ hF1 hF2
  have hw4 := fold2_warn c.name post2 _ _ hw3
  refine ⟨⟨conc1a, conc1b⟩, ?_, ?_⟩
  · rw [h2split]
    exact hw4
  · rw [h2split]
    exact hG2

/-- A class where the JS property x collides with a plain Python attribute
x, and the Python property y collides with an inherited JS attribute y. -/
def clsCollide : ClassDecl :=
  ⟨"W", [("x", MemberKind.plain), ("y", MemberKind.prop)],
    [("x", MemberKind.prop)], [], [], [], ["y"]⟩

/-- Witness for c9_proxy_collision_nonfatal on clsCollide. -/
theorem c9_proxy_collision_nonfatal_witness :
    (warnJsNotProxied "x" "W" ∈ (ModelMeta.run clsCollide).warnings
      ∧ "x" ∉ (ModelMeta.run clsCollide).pyProxyProps)
    ∧ (warnPyNotProxied "y" "W" ∈ (ModelMeta.run clsCollide).warnings
      ∧ "y" ∉ (ModelMeta.run clsCollide).jsProxyProps) :=
  c9_proxy_collision_nonfatal clsCollide "x" "y" [] []
    [("x", MemberKind.plain)] [] (by decide) (by decide) (by decide) (by decide)
    (by decide) (by decide) (by decide) (by decide) (by decide)
